import Mathlib

/-!
Verification of the blockfish post-game analysis / live-evaluation engine
(`main.js`).  The definitions below are a shallow embedding of the JavaScript
source: JS strings are Lean `String`s manipulated through helpers that
reproduce the semantics of `String.prototype.split`, `includes`,
`startsWith` and `parseInt`; JS numbers that flow through `parseInt` are
modelled as `Option Int`, with `none` standing for `NaN` (every value that
actually arises is an integer); the floating-point win-probability transform
is modelled over the real numbers.  Mutable module-level state is modelled
as an explicit `AppState` record threaded through step functions, one per
event handler / entry point of the source.
-/

-- =====================================================================
-- JavaScript string and number primitives
-- =====================================================================

/-- Splits off everything before the first occurrence of `sep` (a non-empty
separator).  Returns the prefix and, when `sep` occurs, the remainder after
that first occurrence.  Helper for `jsSplit`. -/
def splitFirst (sep : List Char) : List Char → (List Char × Option (List Char))
  | [] => ([], none)
  | c :: rest =>
    if sep.isPrefixOf (c :: rest) then ([], some ((c :: rest).drop sep.length))
    else
      match splitFirst sep rest with
      | (b, a) => (c :: b, a)

/-- Fuel-driven worker for `jsSplit`; the fuel (length of the subject) bounds
the number of separator occurrences. -/
def splitAll (sep : List Char) : Nat → List Char → List (List Char)
  | 0, l => [l]
  | fuel + 1, l =>
    match splitFirst sep l with
    | (b, none) => [b]
    | (b, some rest) => b :: splitAll sep fuel rest

/-- JavaScript `s.split(sep)` for a non-empty separator: splits at every
occurrence, keeping empty fragments (`" a".split(" ") == ["", "a"]`). -/
def jsSplit (s sep : String) : List String :=
  (splitAll sep.data s.data.length s.data).map String.mk

/-- JavaScript `s.includes(sub)` for non-empty `sub`: true iff `sub` occurs
as a substring, i.e. iff splitting on it produces more than one fragment. -/
def jsIncludes (s sub : String) : Bool :=
  (jsSplit s sub).length != 1

/-- JavaScript `s.startsWith(pre)`. -/
def jsStartsWith (s pre : String) : Bool :=
  pre.data.isPrefixOf s.data

/-- JavaScript `s.substring(a, b)` for `a <= b` within range. -/
def jsSubstring (s : String) (a b : Nat) : String :=
  String.mk ((s.data.drop a).take (b - a))

/-- Value of a list of decimal digits. -/
def digitsVal (ds : List Char) : Nat :=
  ds.foldl (fun acc c => acc * 10 + (c.toNat - 48)) 0

/-- JavaScript `parseInt(s)` (radix 10): skip leading whitespace, optional
sign, then the longest run of decimal digits; `none` models the `NaN`
result when no digit is found. -/
def jsParseInt (s : String) : Option Int :=
  let cs := s.data.dropWhile (fun c => c = ' ' || c = '\t' || c = '\n' || c = '\r')
  match cs with
  | '-' :: rest =>
    let ds := rest.takeWhile Char.isDigit
    if ds.isEmpty then none else some (-(digitsVal ds : Int))
  | '+' :: rest =>
    let ds := rest.takeWhile Char.isDigit
    if ds.isEmpty then none else some (digitsVal ds : Int)
  | _ =>
    let ds := cs.takeWhile Char.isDigit
    if ds.isEmpty then none else some (digitsVal ds : Int)

/-- `parseInt` applied to a possibly-undefined string (`parseInt(undefined)`
is `NaN`). -/
def jsParseIntOpt (s : Option String) : Option Int :=
  s.bind jsParseInt

/-- First fragment of a space-split: JavaScript `s.split(' ')[0]` (always
defined, since `split` never returns an empty array). -/
def firstSpaceToken (s : String) : String :=
  ((jsSplit s " ").get? 0).getD ""

/-- JavaScript `>=` where the left operand may be `NaN` (`none`): every
comparison against `NaN` is false. -/
def jsGe (a : Option Int) (b : Int) : Bool :=
  match a with
  | some x => decide (b ≤ x)
  | none => false

/-- JavaScript assignment `l[l.length - 1] = v` on an array of numbers: a
no-op on the empty array (the assignment at index `-1` creates a plain
property, leaving the elements unchanged). -/
def jsSetLast {α : Type} (l : List α) (v : α) : List α :=
  l.set (l.length - 1) v

-- =====================================================================
-- Basic data of the game code
-- =====================================================================

/-- A chess.js colour, the value of `game.turn()` / `playerColor.charAt(0)`. -/
inductive Color
  | w
  | b
  deriving DecidableEq, Repr

/-- The other side; effect of one `game.move` / one `game.undo` on
`game.turn()`. -/
def flipColor : Color → Color
  | Color.w => Color.b
  | Color.b => Color.w

/-- An engine move as handled by the source: a source square and a target
square (`{ from: ..., to: ... }`; `from` is a Lean keyword, hence the
field names). -/
structure EngineMove where
  fromSq : String
  toSq : String
  deriving DecidableEq, Repr

/-- The `text` field of the judgement objects returned by
`determineMoveJudgement`. -/
inductive Judgement
  | best
  | excellent
  | good
  | inaccuracy
  | mistake
  | blunder
  deriving DecidableEq, Repr

/-- One entry of the `botProfiles` table: skill level, search depth and
randomization factor (the JS float is modelled as a rational). -/
structure BotProfile where
  skill : Nat
  depth : Nat
  random : ℚ
  deriving DecidableEq, Repr

/-- The `botProfiles` table mapping Elo to engine settings, as an
association list in the source's key order. -/
def botProfiles : List (Nat × BotProfile) :=
  [ (100,  ⟨0,  1,  0.80⟩),
    (200,  ⟨0,  1,  0.70⟩),
    (300,  ⟨0,  1,  0.65⟩),
    (400,  ⟨0,  1,  0.60⟩),
    (500,  ⟨0,  1,  0.55⟩),
    (600,  ⟨0,  2,  0.50⟩),
    (700,  ⟨0,  2,  0.45⟩),
    (800,  ⟨1,  2,  0.40⟩),
    (900,  ⟨1,  3,  0.35⟩),
    (1000, ⟨2,  3,  0.30⟩),
    (1100, ⟨3,  4,  0.25⟩),
    (1200, ⟨4,  4,  0.20⟩),
    (1300, ⟨5,  5,  0.15⟩),
    (1400, ⟨6,  5,  0.10⟩),
    (1500, ⟨7,  6,  0.05⟩),
    (1600, ⟨8,  6,  0.00⟩),
    (1700, ⟨9,  7,  0.00⟩),
    (1800, ⟨10, 8,  0.00⟩),
    (1900, ⟨11, 9,  0.00⟩),
    (2000, ⟨12, 10, 0.00⟩),
    (2100, ⟨13, 11, 0.00⟩),
    (2200, ⟨14, 12, 0.00⟩),
    (2300, ⟨15, 13, 0.00⟩),
    (2400, ⟨16, 14, 0.00⟩),
    (2500, ⟨17, 15, 0.00⟩),
    (2600, ⟨18, 16, 0.00⟩),
    (2700, ⟨19, 17, 0.00⟩),
    (2800, ⟨20, 18, 0.00⟩),
    (2900, ⟨20, 20, 0.00⟩),
    (3000, ⟨20, 22, 0.00⟩) ]

/-- The rating cutoff of the move weakener: `if (currentElo < 1600)` in the
`bestmove` handler of `botEngine.onmessage`. -/
def weakeningCutoff : Nat := 1600

/-- The named `mateThreshold` constant of `determineMoveJudgement`
("thresholds for Mate", 5000). -/
def mateThreshold : Int := 5000

/-- The unnamed threshold used by the terminal branch of
`determineMoveJudgement` (and by `updateEvalBar`'s `mateIncoming`):
`Math.abs(...) > 15000`. -/
def terminalMateCut : Int := 15000

-- =====================================================================
-- Win-probability transform and judgement classifier
-- =====================================================================

/-- `calculateEvaluation(centipawnAdvantage)`: the win-probability sigmoid
`100 / (1 + 10^(-0.004 * cp))`.  The JS double arithmetic is modelled over
the real numbers. -/
noncomputable def calculateEvaluation (centipawnAdvantage : ℝ) : ℝ :=
  let sensitivityFactor : ℝ := 0.004
  let winChance := 1 / (1 + (10 : ℝ) ^ (-sensitivityFactor * centipawnAdvantage))
  winChance * 100

/-- `determineMoveJudgement(movePlayed, bestMove, previousEvaluation,
currentEvaluation, turnColor)`: quality grade for a played move.  The
evaluations are the integer centipawn / mate-encoded scores stored in
`evalHistory`. -/
noncomputable def determineMoveJudgement (movePlayed : EngineMove)
    (bestMove : Option EngineMove)
    (previousEvaluation currentEvaluation : Int) (turnColor : Color) :
    Judgement :=
  -- Guard clause for the final move of the game (null best move)
  match bestMove with
  | none =>
    if |currentEvaluation| > 15000 then Judgement.best else Judgement.good
  | some bm =>
    -- The best move was played
    if movePlayed.fromSq = bm.fromSq ∧ movePlayed.toSq = bm.toSq then
      Judgement.best
    else
      -- Blunder check (thresholds 5000 / 750)
      let isMateAgainstWhite := currentEvaluation ≤ -mateThreshold
      let isMateAgainstBlack := currentEvaluation ≥ mateThreshold
      let wasMateAgainstWhite := previousEvaluation ≤ -mateThreshold
      let wasMateAgainstBlack := previousEvaluation ≥ mateThreshold
      let whiteWasLost := previousEvaluation < -750
      let blackWasLost := previousEvaluation > 750
      let positionBlundered :=
        if turnColor = Color.w then
          isMateAgainstWhite ∧ ¬wasMateAgainstWhite ∧ ¬whiteWasLost
        else
          isMateAgainstBlack ∧ ¬wasMateAgainstBlack ∧ ¬blackWasLost
      if positionBlundered then Judgement.blunder
      else
        -- Standard move judgement by lost winning chance
        let previousWinningChance := calculateEvaluation previousEvaluation
        let currentWinningChance := calculateEvaluation currentEvaluation
        let lostAdvantage :=
          if turnColor = Color.w then
            previousWinningChance - currentWinningChance
          else
            currentWinningChance - previousWinningChance
        if lostAdvantage ≤ 2 then Judgement.excellent
        else if lostAdvantage ≤ 5 then Judgement.good
        else if lostAdvantage ≤ 10 then Judgement.inaccuracy
        else if lostAdvantage ≤ 20 then Judgement.mistake
        else Judgement.blunder

/-- The per-move accuracy sample computed inline in the review branch of
`hintEngine.onmessage`: win chances of the evaluation before (`prevEval`,
the position the best move was recommended in) and after (`currEval`) the
move, flipped to the mover's perspective for Black, then
`100 - (bestWinChance - playedWinChance)` clamped above at 100. -/
noncomputable def reviewAccuracy (prevEval currEval : Int)
    (moverColor : Color) : ℝ :=
  let bestWinChance := calculateEvaluation prevEval
  let playedWinChance := calculateEvaluation currEval
  let bestWinChance' :=
    if moverColor = Color.b then 100 - bestWinChance else bestWinChance
  let playedWinChance' :=
    if moverColor = Color.b then 100 - playedWinChance else playedWinChance
  let accuracy := 100 - (bestWinChance' - playedWinChance')
  if accuracy > 100 then 100 else accuracy

-- =====================================================================
-- Score interpreter (the `info ... score ...` handling of both engines)
-- =====================================================================

/-- Mate-distance encoding of both `onmessage` handlers:
`mateIn > 0 ? 20000 - mateIn : -20000 - mateIn`. -/
def encodeMate (mateIn : Int) : Int :=
  if mateIn > 0 then 20000 - mateIn else -20000 - mateIn

/-- The score a recognized `info ... score ...` line carries, before the
perspective adjustment; shared verbatim by `botEngine.onmessage` and
`hintEngine.onmessage`.  The outer `none` models the `TypeError` thrown by
`undefined.split` when `includes` matched but the longer separator does
not occur (the handler aborts before mutating state); the inner `none`
models a `NaN` from `parseInt` propagating through the arithmetic. -/
def rawScoreOfLine (line : String) : Option (Option Int) :=
  if jsIncludes line "mate" then
    match (jsSplit line "mate ").get? 1 with
    | none => none                   -- undefined.split(' ') throws
    | some mateString =>
      match jsParseInt (firstSpaceToken mateString) with
      | none => some none            -- NaN mate distance; NaN score
      | some mateIn => some (some (encodeMate mateIn))
  else if jsIncludes line "cp" then
    match (jsSplit line "score cp ").get? 1 with
    | none => none                   -- undefined.split(' ') throws
    | some cpString => some (jsParseIntOpt (some (firstSpaceToken cpString)))
  else
    some (some 0)                    -- `let score = 0` is never overwritten

/-- `if (game.turn() === 'b') score = -score`: store every evaluation from
White's perspective (`NaN` stays `NaN`). -/
def adjustPerspective (turn : Color) (score : Option Int) : Option Int :=
  if turn = Color.b then score.map (fun s => -s) else score

/-- The `currentDepth` extracted by `botEngine.onmessage`:
`parseInt(line.split('depth')[1].split(' ')[0])`, with `currentDepth = 0`
when the line has no `depth` field.  For a standard
`info depth N ...` line the fragment after `'depth'` begins with a space,
so the parsed token is empty and the result is `NaN` (`none`). -/
def parsedDepth (line : String) : Option Int :=
  if jsIncludes line "depth" then
    jsParseIntOpt (((jsSplit line "depth").get? 1).map firstSpaceToken)
  else
    some 0

-- =====================================================================
-- Application state (the module-level mutable variables)
-- =====================================================================

/-- The module-level mutable state relevant to history, evaluation and
review.  `evalHistory` entries are JS numbers (`none` = `NaN`);
`historyLen` is `game.history().length` and `turn` is `game.turn()`,
tracked here because the `game` object is an external collaborator.
`evalBar` is the argument of the latest `updateEvalBar` call (the live
display).  UI-only variables (highlight classes, sounds, filters, the
judgement dots and counters) are not modelled. -/
structure AppState where
  gameActive : Bool
  reviewingGame : Bool
  gettingHint : Bool
  playerColor : Color
  turn : Color
  historyLen : Nat
  fenHistory : List String
  viewingIndex : Nat
  evalHistory : List (Option Int)
  currentEval : Option Int
  tempBestEval : Option Int
  hintHistory : List (Option EngineMove)
  analysisIndex : Nat
  botSearchDepth : Int
  evalBar : Option Int
  deriving DecidableEq, Repr

/-- The result of `game.in_checkmate()`, `game.in_draw()` and the finer
draw predicates of the rules-engine collaborator, sampled when
`updateStatus` runs.  chess.js's `in_draw` covers stalemate, threefold
repetition, insufficient material and the fifty-move rule. -/
structure RulesFlags where
  inCheckmate : Bool
  inDraw : Bool
  inStalemate : Bool
  inThreefold : Bool
  insufficientMaterial : Bool
  inCheck : Bool
  deriving DecidableEq, Repr

/-- `fenSnapshot()`: push the position and the current evaluation, and move
the viewing index to the new last entry. -/
def fenSnapshot (fen : String) (st : AppState) : AppState :=
  let fh := st.fenHistory ++ [fen]
  { st with fenHistory := fh,
            viewingIndex := fh.length - 1,
            evalHistory := st.evalHistory ++ [st.currentEval] }

/-- `updateStatus()`: on checkmate or draw, end the game and overwrite the
last stored evaluation (status text, modals and highlights are UI). -/
def updateStatus (flags : RulesFlags) (st : AppState) : AppState :=
  if !st.gameActive then st
  else if flags.inCheckmate then
    let ce : Option Int := some (if st.turn = Color.b then 20000 else -20000)
    { st with gameActive := false,
              currentEval := ce,
              evalHistory := jsSetLast st.evalHistory ce }
  else if flags.inDraw then
    { st with gameActive := false,
              currentEval := some 0,
              evalHistory := jsSetLast st.evalHistory (some 0) }
  else st

/-- `startNewGame()`: guard against an active game, then reset the
histories to the starting position with evaluation 0 and activate play.
`startFen` is `game.fen()` after `game.reset()`; UI work is skipped.
(When `pc = b`, `makeEngineMove` is scheduled, so engine messages follow.) -/
def startNewGame (pc : Color) (startFen : String) (st : AppState) : AppState :=
  if st.gameActive then st
  else
    { st with reviewingGame := false,
              turn := Color.w,
              historyLen := 0,
              fenHistory := [startFen],
              viewingIndex := 0,
              evalHistory := [some 0],
              currentEval := some 0,
              evalBar := some 0,
              gameActive := true,
              playerColor := pc }

/-- `exitToMenu()`: stop play and review and reset the histories exactly as
`startNewGame` does, but leave the game inactive. -/
def exitToMenu (startFen : String) (st : AppState) : AppState :=
  { st with gameActive := false,
            reviewingGame := false,
            turn := Color.w,
            historyLen := 0,
            fenHistory := [startFen],
            viewingIndex := 0,
            evalHistory := [some 0],
            currentEval := some 0,
            evalBar := some 0 }

/-- `undoMove()`: under its three guards, take back the player's move and
the engine's reply — two `game.undo()`s, two pops from each history — then
restore `currentEval` and the viewing index.  The source also calls
`updateStatus()`; the flags of the resulting position are an input. -/
def undoMove (flags : RulesFlags) (st : AppState) : AppState :=
  if !st.gameActive then st
  else if st.historyLen < 2 then st
  else if st.turn ≠ st.playerColor then st
  else
    let fenHistory := st.fenHistory.dropLast.dropLast
    let evalHistory := st.evalHistory.dropLast.dropLast
    let currentEval := (evalHistory.getLast?).getD (some 0)
    let st' := { st with historyLen := st.historyLen - 2,
                         fenHistory := fenHistory,
                         evalHistory := evalHistory,
                         currentEval := currentEval,
                         viewingIndex := fenHistory.length - 1 }
    updateStatus flags st'

/-- The `info ... score ...` branch of `botEngine.onmessage`: parse the
score, flip it to White's perspective, store it in `currentEval` and (when
the history is non-empty) over the last `evalHistory` entry, and refresh
the eval bar only when the parsed depth passes the requested-depth test. -/
def botEngineScoreStep (line : String) (st : AppState) : AppState :=
  if jsStartsWith line "info" && jsIncludes line "score" then
    match rawScoreOfLine line with
    | none => st                  -- the handler threw before mutating state
    | some raw =>
      let score := adjustPerspective st.turn raw
      let st' := { st with
        currentEval := score,
        evalHistory :=
          if st.evalHistory.length > 0 then jsSetLast st.evalHistory score
          else st.evalHistory }
      if jsGe (parsedDepth line) st.botSearchDepth then
        { st' with evalBar := score }
      else st'
  else st

/-- The `bestmove` branch of `botEngine.onmessage`: force an eval-bar
update, play the (possibly weakened) engine move — one `game.move`, so the
turn flips and the move count grows — snapshot, and run `updateStatus`.
Which move was chosen and the resulting `game.fen()` are inputs; the
weakener changes the move, not the bookkeeping modelled here. -/
def botEngineBestStep (newFen : String) (flags : RulesFlags)
    (st : AppState) : AppState :=
  let st1 := { st with evalBar := st.currentEval }
  let st2 := { st1 with turn := flipColor st1.turn,
                        historyLen := st1.historyLen + 1 }
  updateStatus flags (fenSnapshot newFen st2)

/-- A successful player move in `onDrop`: guarded by `onDragStart` (no
viewing of past positions, game in progress, own piece — i.e. the player's
turn), then `game.move`, snapshot, `updateStatus`. -/
def playerMoveStep (newFen : String) (flags : RulesFlags)
    (st : AppState) : AppState :=
  if st.gameActive && st.turn = st.playerColor
      && st.viewingIndex = st.fenHistory.length - 1 then
    let st1 := { st with turn := flipColor st.turn,
                         historyLen := st.historyLen + 1 }
    updateStatus flags (fenSnapshot newFen st1)
  else st

/-- `getHint()`: under its guards, raise the `gettingHint` flag (the
engine request itself carries no state). -/
def getHint (st : AppState) : AppState :=
  if !st.gameActive then st
  else if st.turn ≠ st.playerColor then st
  else if st.viewingIndex ≠ st.fenHistory.length - 1 then st
  else { st with gettingHint := true }

/-- `reviewGame()` followed by `analyzeGame()` and the entry of the first
`triggerMoveAnalysis()`: raise the review flag, navigate to the first
position, reset the hint history and the analysis index, and clear
`tempBestEval` (judgement counters and the loading bar are UI). -/
def reviewGameStep (st : AppState) : AppState :=
  { st with reviewingGame := true,
            viewingIndex := 0,
            hintHistory := [],
            analysisIndex := 0,
            tempBestEval := some 0 }

/-- The `info ... score ...` branch of `hintEngine.onmessage`: hold the
parsed score in `tempBestEval` until `bestmove` arrives (no depth test, no
perspective flip here). -/
def hintEngineScoreStep (line : String) (st : AppState) : AppState :=
  if jsStartsWith line "info" && jsIncludes line "score" then
    match rawScoreOfLine line with
    | none => st                  -- the handler threw before mutating state
    | some raw => { st with tempBestEval := raw }
  else st

/-- JS assignment `hintHistory[analysisIndex] = v` — during review the
index is always `hintHistory.length`, appending; other indices set in
place (out-of-range holes are not modelled beyond a no-op). -/
def hintHistorySet (l : List (Option EngineMove)) (i : Nat)
    (v : Option EngineMove) : List (Option EngineMove) :=
  if i = l.length then l ++ [v] else l.set i v

/-- The `bestmove` branch of `hintEngine.onmessage`.  During review:
record the hint (or `null` on the `(none)` terminal marker), flip
`tempBestEval` to White's perspective using the side to move of the
analyzed FEN, overwrite `evalHistory` at the analysis index with this
review-depth score, refresh the bar when that index is in view, and
advance the pipeline (`analysisIndex++` and the `tempBestEval = 0` at the
head of the next `triggerMoveAnalysis`).  The judgement/accuracy samples
pushed here are UI-side aggregates, computed by `determineMoveJudgement`
and `reviewAccuracy`.  Mid-game: consume the `gettingHint` flag. -/
def hintEngineBestStep (message : String) (st : AppState) : AppState :=
  match (jsSplit message " ").get? 1 with
  | none => st                    -- undefined.substring would throw
  | some bestMoveMessage =>
    if bestMoveMessage = "(none)" then
      if st.reviewingGame then
        { st with hintHistory := hintHistorySet st.hintHistory st.analysisIndex none,
                  analysisIndex := st.analysisIndex + 1,
                  tempBestEval := some 0 }
      else st
    else
      let source := jsSubstring bestMoveMessage 0 2
      let target := jsSubstring bestMoveMessage 2 4
      if st.reviewingGame then
        match st.fenHistory.get? st.analysisIndex with
        | none => st              -- undefined.split would throw
        | some currentFen =>
          let bestEvalWhitePerspective :=
            if (jsSplit currentFen " ").get? 1 = some "b" then
              st.tempBestEval.map (fun s => -s)
            else st.tempBestEval
          let st1 := { st with
            hintHistory := hintHistorySet st.hintHistory st.analysisIndex
              (some ⟨source, target⟩),
            evalHistory := st.evalHistory.set st.analysisIndex
              bestEvalWhitePerspective }
          let st2 :=
            if st.analysisIndex = st.viewingIndex then
              { st1 with evalBar := bestEvalWhitePerspective }
            else st1
          { st2 with analysisIndex := st2.analysisIndex + 1,
                     tempBestEval := some 0 }
      else if !st.gettingHint then st
      else { st with gettingHint := false }

-- =====================================================================
-- Events and runs
-- =====================================================================

/-- The entry points through which the modelled state changes, each
carrying the data the environment (player, engines, rules engine)
supplies. -/
inductive GameEvent
  | startGame (pc : Color) (startFen : String)
  | playerMove (newFen : String) (flags : RulesFlags)
  | botScore (line : String)
  | botBest (newFen : String) (flags : RulesFlags)
  | undo (flags : RulesFlags)
  | hint
  | hintScore (line : String)
  | hintBest (message : String)
  | startReview
  | exitMenu (startFen : String)
  deriving DecidableEq, Repr

/-- One event's effect on the state. -/
def stepEvent (st : AppState) : GameEvent → AppState
  | GameEvent.startGame pc fen => startNewGame pc fen st
  | GameEvent.playerMove fen flags => playerMoveStep fen flags st
  | GameEvent.botScore line => botEngineScoreStep line st
  | GameEvent.botBest fen flags => botEngineBestStep fen flags st
  | GameEvent.undo flags => undoMove flags st
  | GameEvent.hint => getHint st
  | GameEvent.hintScore line => hintEngineScoreStep line st
  | GameEvent.hintBest message => hintEngineBestStep message st
  | GameEvent.startReview => reviewGameStep st
  | GameEvent.exitMenu fen => exitToMenu fen st

/-- Run a list of events from a state. -/
def runEvents (st : AppState) (evs : List GameEvent) : AppState :=
  evs.foldl stepEvent st

/-- The FEN of the standard starting position. -/
def startingFen : String :=
  "rnbqkbnr/pppppppp/8/8/8/8/PPPPPPPP/RNBQKBNR w KQkq - 0 1"

/-- The module-level variables as initialized on page load
(`fenHistory = []`, `evalHistory = [0]`, indices 0, depth 1, inactive). -/
def pageLoadState : AppState :=
  { gameActive := false,
    reviewingGame := false,
    gettingHint := false,
    playerColor := Color.w,
    turn := Color.w,
    historyLen := 0,
    fenHistory := [],
    viewingIndex := 0,
    evalHistory := [some 0],
    currentEval := some 0,
    tempBestEval := some 0,
    hintHistory := [],
    analysisIndex := 0,
    botSearchDepth := 1,
    evalBar := some 0 }

-- =====================================================================
-- Batch Analysis Pipeline request/response trace
-- =====================================================================

/-- An observable action of the review pipeline on the hint-engine
channel: `request i` is `triggerMoveAnalysis` posting
`position fen fenHistory[i]` + `go depth ...` with `analysisIndex = i`;
`response i` is the full processing of the matching `bestmove` message by
`hintEngine.onmessage` (which ends with `analysisIndex++` and a recursive
`triggerMoveAnalysis()`). -/
inductive AnalysisEvent
  | request (i : Nat)
  | response (i : Nat)
  deriving DecidableEq, Repr

/-- The complete action sequence of the pipeline started at
`analysisIndex = i` for a finished game of `moveCount` plies
(`moveCount = game.history().length`): `triggerMoveAnalysis` stops as soon
as `analysisIndex >= moveCount + 1` (summary), otherwise it issues the
request for ply `i`, whose response is processed to completion before the
next trigger runs. -/
def triggerMoveAnalysisTrace (moveCount i : Nat) : List AnalysisEvent :=
  if moveCount + 1 ≤ i then []
  else
    AnalysisEvent.request i :: AnalysisEvent.response i ::
      triggerMoveAnalysisTrace moveCount (i + 1)
termination_by moveCount + 1 - i

/-- Whether an analysis event is a request. -/
def isRequest : AnalysisEvent → Bool
  | AnalysisEvent.request _ => true
  | AnalysisEvent.response _ => false

/-- Whether an analysis event is a response. -/
def isResponse : AnalysisEvent → Bool
  | AnalysisEvent.request _ => false
  | AnalysisEvent.response _ => true

/-- A mid-game state for exercising `botEngine.onmessage`: one move
played, requested search depth 5. -/
def c3State : AppState :=
  { gameActive := true,
    reviewingGame := false,
    gettingHint := false,
    playerColor := Color.w,
    turn := Color.w,
    historyLen := 1,
    fenHistory := ["f0", "f1"],
    viewingIndex := 1,
    evalHistory := [some 0, some 0],
    currentEval := some 0,
    tempBestEval := some 0,
    hintHistory := [],
    analysisIndex := 0,
    botSearchDepth := 5,
    evalBar := some 0 }

/-- Side conditions under which an event cannot write the ply-0
evaluation: engine score lines must not arrive while ply 0 is the only
history entry, moves must find a non-empty history to append to, an undo
must leave ply 0 behind and end in an ongoing position, and a review
best-move response must not be re-evaluating analysis index 0. -/
def evSafe (st : AppState) : GameEvent → Prop
  | GameEvent.startGame _ _ => True
  | GameEvent.playerMove _ _ => st.evalHistory ≠ []
  | GameEvent.botScore _ => st.evalHistory.length ≠ 1
  | GameEvent.botBest _ _ => st.evalHistory ≠ []
  | GameEvent.undo flags =>
      3 ≤ st.evalHistory.length ∧ flags.inCheckmate = false ∧
        flags.inDraw = false
  | GameEvent.hint => True
  | GameEvent.hintScore _ => True
  | GameEvent.hintBest _ => st.reviewingGame = false ∨ st.analysisIndex ≠ 0
  | GameEvent.startReview => True
  | GameEvent.exitMenu _ => True

/-- A run in which every event satisfies its side condition in the state
it fires from. -/
def SafeTrace : AppState → List GameEvent → Prop
  | _, [] => True
  | st, e :: evs => evSafe st e ∧ SafeTrace (stepEvent st e) evs

/-- A game started with the player as Black, followed by the engine's
first thinking output: a reachable live-play prefix in which the score
line arrives while ply 0 is the only history entry. -/
def c9Events : List GameEvent :=
  [GameEvent.startGame Color.b startingFen,
   GameEvent.botScore "info depth 1 score cp 30"]

-- =====================================================================
-- Shared helper lemmas
-- =====================================================================

/-- The sigmoid base term is positive. -/
lemma ratePow_pos (x : ℝ) : 0 < (10 : ℝ) ^ x :=
  Real.rpow_pos_of_pos (by norm_num) x

/-- `calculateEvaluation` written without the intermediate lets. -/
lemma calculateEvaluation_def (x : ℝ) :
    calculateEvaluation x =
      1 / (1 + (10 : ℝ) ^ (-(0.004 : ℝ) * x)) * 100 := rfl

/-- Win probability of the balanced score 0 is 50. -/
lemma calculateEvaluation_zero : calculateEvaluation 0 = 50 := by
  rw [calculateEvaluation_def]
  norm_num

/-- `10 ^ (2 : ℝ) = 100` (real power). -/
lemma rpow_two_eq : (10 : ℝ) ^ (2 : ℝ) = 100 := by
  rw [show (2 : ℝ) = ((2 : ℕ) : ℝ) by norm_num, Real.rpow_natCast]
  norm_num

/-- Win probability of a 500-centipawn deficit. -/
lemma calculateEvaluation_neg500 : calculateEvaluation (-500) = 100 / 101 := by
  rw [calculateEvaluation_def]
  rw [show (-(0.004 : ℝ) * (-500)) = (2 : ℝ) by norm_num, rpow_two_eq]
  norm_num

-- =====================================================================
-- C5: properties of the win-probability transform
-- =====================================================================

/-- C5: the win-probability transform
`winPct(score) = 100 / (1 + 10^(-0.004 * score))` implemented by
`calculateEvaluation` is strictly monotonic increasing in the score, maps
0 to 50, and satisfies `winPct(cp) + winPct(-cp) = 100` for every
centipawn value. -/
theorem C5_winPct_properties :
    (∀ x y : ℝ, x < y → calculateEvaluation x < calculateEvaluation y) ∧
    calculateEvaluation 0 = 50 ∧
    (∀ cp : ℝ, calculateEvaluation cp + calculateEvaluation (-cp) = 100) := by
  refine ⟨?_, calculateEvaluation_zero, ?_⟩
  · intro x y hxy
    rw [calculateEvaluation_def, calculateEvaluation_def]
    have hexp : -(0.004 : ℝ) * y < -(0.004 : ℝ) * x := by nlinarith
    have ht : (10 : ℝ) ^ (-(0.004 : ℝ) * y) < (10 : ℝ) ^ (-(0.004 : ℝ) * x) :=
      (Real.rpow_lt_rpow_left_iff (by norm_num)).mpr hexp
    have hy : (0 : ℝ) < 1 + (10 : ℝ) ^ (-(0.004 : ℝ) * y) := by
      have := ratePow_pos (-(0.004 : ℝ) * y); linarith
    have hlt : 1 / (1 + (10 : ℝ) ^ (-(0.004 : ℝ) * x))
        < 1 / (1 + (10 : ℝ) ^ (-(0.004 : ℝ) * y)) :=
      one_div_lt_one_div_of_lt hy (by linarith)
    linarith
  · intro cp
    rw [calculateEvaluation_def, calculateEvaluation_def]
    rw [show -(0.004 : ℝ) * -cp = -(-(0.004 : ℝ) * cp) by ring,
      Real.rpow_neg (by norm_num : (0 : ℝ) ≤ 10)]
    have ha : (0 : ℝ) < (10 : ℝ) ^ (-(0.004 : ℝ) * cp) :=
      ratePow_pos (-(0.004 : ℝ) * cp)
    have h1 : 1 + (10 : ℝ) ^ (-(0.004 : ℝ) * cp) ≠ 0 := by linarith
    have h2 : 1 + ((10 : ℝ) ^ (-(0.004 : ℝ) * cp))⁻¹ ≠ 0 := by positivity
    field_simp
    ring

/-- Witness for C5 at concrete scores 0, 1 and 100. -/
theorem C5_winPct_properties_witness :
    calculateEvaluation 0 < calculateEvaluation 1 ∧
    calculateEvaluation 100 + calculateEvaluation (-100) = 100 :=
  ⟨C5_winPct_properties.1 0 1 zero_lt_one, C5_winPct_properties.2.2 100⟩

-- =====================================================================
-- C7: monotonicity of the difficulty profile table
-- =====================================================================

/-- Adjacent rows of the table: ratings strictly increase, skill and depth
never decrease.  Checked mechanically. -/
lemma botProfiles_pairwise :
    botProfiles.Pairwise (fun p q =>
      p.1 < q.1 ∧ p.2.skill ≤ q.2.skill ∧ p.2.depth ≤ q.2.depth) := by
  decide

/-- C7: the difficulty profile table is monotonic — a strictly higher
rating never has a shallower search depth or a lower skill level — and
every rating below the move-weakener cutoff (1600) has a strictly
positive randomization factor. -/
theorem C7_botProfiles_monotone :
    (∀ p ∈ botProfiles, ∀ q ∈ botProfiles, p.1 < q.1 →
      p.2.skill ≤ q.2.skill ∧ p.2.depth ≤ q.2.depth) ∧
    (∀ p ∈ botProfiles, p.1 < weakeningCutoff → 0 < p.2.random) := by
  constructor
  · intro p hp q hq hlt
    obtain ⟨i, hip⟩ := List.get_of_mem hp
    obtain ⟨j, hjq⟩ := List.get_of_mem hq
    rcases lt_trichotomy i j with hij | hij | hij
    · have := (List.pairwise_iff_get.mp botProfiles_pairwise) i j hij
      rw [hip, hjq] at this
      exact this.2
    · rw [← hip, ← hjq, hij] at hlt
      exact absurd hlt (lt_irrefl _)
    · have := (List.pairwise_iff_get.mp botProfiles_pairwise) j i hij
      rw [hip, hjq] at this
      exact absurd (lt_trans hlt this.1) (lt_irrefl _)
  · intro p hp hcut
    fin_cases hp <;> norm_num [weakeningCutoff] at hcut ⊢

/-- Witness for C7 at the 100-Elo and 200-Elo rows. -/
theorem C7_botProfiles_monotone_witness :
    ((100, (⟨0, 1, 0.80⟩ : BotProfile)).2.skill
        ≤ (200, (⟨0, 1, 0.70⟩ : BotProfile)).2.skill
      ∧ (100, (⟨0, 1, 0.80⟩ : BotProfile)).2.depth
        ≤ (200, (⟨0, 1, 0.70⟩ : BotProfile)).2.depth) ∧
    (0 : ℚ) < (100, (⟨0, 1, 0.80⟩ : BotProfile)).2.random :=
  ⟨C7_botProfiles_monotone.1 (100, ⟨0, 1, 0.80⟩) (List.mem_cons_self _ _)
      (200, ⟨0, 1, 0.70⟩) (List.mem_cons_of_mem _ (List.mem_cons_self _ _))
      (by norm_num),
    C7_botProfiles_monotone.2 (100, ⟨0, 1, 0.80⟩) (List.mem_cons_self _ _)
      (by norm_num [weakeningCutoff])⟩

-- =====================================================================
-- C4: the mate-score encoding
-- =====================================================================

/-- C4 counterexample: the claim "every mate encoding exceeds the mate
threshold" fails at the mover-favored mate distance 15000, whose encoding
`20000 - 15000` equals the 5000 threshold instead of exceeding it. -/
theorem C4_mate_encoding_counterexample :
    (0 : Int) < 15000 ∧ encodeMate 15000 = mateThreshold ∧
    ¬ mateThreshold < |encodeMate 15000| := by
  decide

/-- C4 (amended): a mover-favored mate line with distance N stores
`MATE_BASE - N` with `MATE_BASE = 20000` (the line
`"info depth 10 score mate 3"` stores 19997), and on mate distances below
15000 the encoding is monotonic — a nearer mate encodes to a strictly
more extreme magnitude — and always exceeds the 5000 mate threshold. -/
theorem C4_mate_encoding :
    rawScoreOfLine "info depth 10 score mate 3" = some (some 19997) ∧
    (∀ n : Int, 0 < n → encodeMate n = 20000 - n) ∧
    (∀ n₁ n₂ : Int, 0 < n₁ → n₁ < n₂ → n₂ < 15000 →
      |encodeMate n₂| < |encodeMate n₁|) ∧
    (∀ n : Int, 0 < n → n < 15000 → mateThreshold < |encodeMate n|) := by
  refine ⟨by decide, ?_, ?_, ?_⟩
  · intro n hn
    simp [encodeMate, hn]
  · intro n₁ n₂ h1 h12 h2
    have e1 : encodeMate n₁ = 20000 - n₁ := by simp [encodeMate, h1]
    have e2 : encodeMate n₂ = 20000 - n₂ := by simp [encodeMate]; omega
    rw [e1, e2, abs_of_pos (by omega), abs_of_pos (by omega)]
    omega
  · intro n h0 h15
    have e : encodeMate n = 20000 - n := by simp [encodeMate, h0]
    rw [e, abs_of_pos (by omega)]
    simp [mateThreshold]
    omega

/-- Witness for C4 at distances 3, 1 and 5. -/
theorem C4_mate_encoding_witness :
    encodeMate 3 = 19997 ∧ |encodeMate 5| < |encodeMate 1| ∧
    mateThreshold < |encodeMate 3| :=
  ⟨C4_mate_encoding.2.1 3 (by norm_num),
    C4_mate_encoding.2.2.1 1 5 (by norm_num) (by norm_num) (by norm_num),
    C4_mate_encoding.2.2.2 3 (by norm_num) (by norm_num)⟩

-- =====================================================================
-- C6: the terminal branch of the classifier
-- =====================================================================

/-- C6 counterexample: the claim says a terminal position whose stored
evaluation exceeds the mate threshold is graded `Best`; at evaluation
6000 (above the classifier's `mateThreshold = 5000`) the code grades
`good`, because the terminal branch compares against 15000 instead. -/
theorem C6_terminal_counterexample :
    mateThreshold < |(6000 : Int)| ∧
    determineMoveJudgement ⟨"a1", "a2"⟩ none 0 6000 Color.w
      = Judgement.good := by
  constructor
  · decide
  · simp [determineMoveJudgement]

/-- C6 (amended): with a null best move (terminal position), the grade is
`Best` exactly when the absolute stored evaluation after the move exceeds
15000 — a separate terminal cutoff, not the classifier's 5000
`mateThreshold` — and `Good` otherwise, independent of the evaluation
before the move and the mover's side. -/
theorem C6_terminal_judgement :
    mateThreshold = 5000 ∧ terminalMateCut = 15000 ∧
    ∀ (m : EngineMove) (e₁ e₂ : Int) (c : Color),
      determineMoveJudgement m none e₁ e₂ c =
        if terminalMateCut < |e₂| then Judgement.best else Judgement.good := by
  refine ⟨rfl, rfl, ?_⟩
  intro m e₁ e₂ c
  simp [determineMoveJudgement, terminalMateCut]

-- =====================================================================
-- C2: exact best-move match
-- =====================================================================

/-- C2 counterexample: the played move equals the engine's best move, yet
the recorded accuracy sample is `50 + 100/101 ≈ 50.99`, not 100 — the
accuracy is computed from the evaluation pair alone (here 0 before,
−500 after, White to move) and is not forced to 100 by the match. -/
theorem C2_best_move_counterexample :
    determineMoveJudgement ⟨"e2", "e4"⟩ (some ⟨"e2", "e4"⟩) 0 (-500) Color.w
      = Judgement.best ∧
    reviewAccuracy 0 (-500) Color.w ≠ 100 := by
  constructor
  · simp [determineMoveJudgement]
  · unfold reviewAccuracy
    simp only [show (Color.w = Color.b) = False by simp, if_false]
    rw [show ((0 : Int) : ℝ) = (0 : ℝ) by norm_num,
      show (((-500) : Int) : ℝ) = ((-500) : ℝ) by norm_num]
    rw [calculateEvaluation_zero, calculateEvaluation_neg500]
    norm_num

/-- C2 (amended): when the played move has the same source and target
squares as the best move, the classifier returns `Best` regardless of the
evaluation inputs; the accuracy sample recorded for the transition,
however, is `min(100, 100 - (bestWinPct - playedWinPct))`, computed from
the evaluations alone, and equals 100 exactly when the position's win
chance from the mover's perspective did not drop. -/
theorem C2_best_move_judgement :
    (∀ (m bm : EngineMove) (e₁ e₂ : Int) (c : Color),
      m.fromSq = bm.fromSq → m.toSq = bm.toSq →
      determineMoveJudgement m (some bm) e₁ e₂ c = Judgement.best) ∧
    (∀ (e₁ e₂ : Int) (c : Color),
      reviewAccuracy e₁ e₂ c = 100 ↔
        (if c = Color.b then 100 - calculateEvaluation e₁
          else calculateEvaluation e₁)
        ≤ (if c = Color.b then 100 - calculateEvaluation e₂
          else calculateEvaluation e₂)) := by
  constructor
  · intro m bm e₁ e₂ c hf ht
    simp [determineMoveJudgement, hf, ht]
  · intro e₁ e₂ c
    unfold reviewAccuracy
    by_cases hc : c = Color.b
    · simp only [hc, if_true, reduceIte]
      split_ifs with hgt
      · constructor
        · intro _
          linarith
        · intro _
          rfl
      · constructor
        · intro he
          linarith
        · intro hle
          linarith
    · simp only [hc, if_false, reduceIte]
      split_ifs with hgt
      · constructor
        · intro _
          linarith
        · intro _
          rfl
      · constructor
        · intro he
          linarith
        · intro hle
          linarith

/-- Witness for C2 at a concrete matching move with equal evaluations. -/
theorem C2_best_move_judgement_witness :
    determineMoveJudgement ⟨"g1", "f3"⟩ (some ⟨"g1", "f3"⟩) 7 (-3) Color.w
      = Judgement.best ∧
    reviewAccuracy 12 12 Color.b = 100 :=
  ⟨C2_best_move_judgement.1 ⟨"g1", "f3"⟩ ⟨"g1", "f3"⟩ 7 (-3) Color.w rfl rfl,
    (C2_best_move_judgement.2 12 12 Color.b).mpr (le_refl _)⟩

-- =====================================================================
-- C3: provisional (shallow-depth) score updates
-- =====================================================================

/-- C3 counterexample: a score line reporting depth 1 while depth 5 was
requested does overwrite the stored evaluation of the current ply
(`[0, 0]` becomes `[0, 150]`), contradicting the claim that shallow
scores leave the store unchanged; only the eval-bar display is left
untouched. -/
theorem C3_shallow_score_counterexample :
    c3State.botSearchDepth = 5 ∧
    (botEngineScoreStep "info depth 1 score cp 150" c3State).evalHistory
      = [some 0, some 150] ∧
    ¬ (botEngineScoreStep "info depth 1 score cp 150" c3State).evalHistory
      = c3State.evalHistory := by
  decide

/-- C3 (amended): every recognized score line — whatever depth it reports
— immediately overwrites `currentEval` and the stored evaluation of the
last ply; the requested-depth test gates only the eval-bar display
refresh, which stays unchanged whenever the test fails (and the parsed
depth of a standard `info depth N ...` line is in fact `NaN`, so on such
lines the test always fails). -/
theorem C3_score_always_overwrites_store (st : AppState) (line : String)
    (s : Int)
    (hinfo : jsStartsWith line "info" = true)
    (hscore : jsIncludes line "score" = true)
    (hraw : rawScoreOfLine line = some (some s))
    (hne : st.evalHistory ≠ [])
    (hdepth : jsGe (parsedDepth line) st.botSearchDepth = false) :
    (botEngineScoreStep line st).evalHistory
      = jsSetLast st.evalHistory (adjustPerspective st.turn (some s)) ∧
    (botEngineScoreStep line st).currentEval
      = adjustPerspective st.turn (some s) ∧
    (botEngineScoreStep line st).evalBar = st.evalBar := by
  have hlen : 0 < st.evalHistory.length := List.length_pos.mpr hne
  simp [botEngineScoreStep, hinfo, hscore, hraw, hdepth, hlen]

/-- Witness for C3 on the depth-1 line against requested depth 5. -/
theorem C3_score_always_overwrites_store_witness :
    (botEngineScoreStep "info depth 1 score cp 150" c3State).evalHistory
      = jsSetLast c3State.evalHistory (adjustPerspective Color.w (some 150)) ∧
    (botEngineScoreStep "info depth 1 score cp 150" c3State).currentEval
      = adjustPerspective Color.w (some 150) ∧
    (botEngineScoreStep "info depth 1 score cp 150" c3State).evalBar
      = c3State.evalBar :=
  C3_score_always_overwrites_store c3State "info depth 1 score cp 150" 150
    (by decide) (by decide) (by decide) (by decide) (by decide)

-- =====================================================================
-- C8: undo removes exactly two trailing entries
-- =====================================================================

/-- `updateStatus` leaves the state untouched when the rules engine
reports neither checkmate nor draw. -/
lemma updateStatus_ongoing (flags : RulesFlags) (st : AppState)
    (hcm : flags.inCheckmate = false) (hdraw : flags.inDraw = false) :
    updateStatus flags st = st := by
  unfold updateStatus
  split_ifs <;> simp_all

/-- The effect of `undoMove` once its three guards pass. -/
lemma undoMove_unguarded (flags : RulesFlags) (st : AppState)
    (hactive : st.gameActive = true)
    (hmoves : 2 ≤ st.historyLen)
    (hturn : st.turn = st.playerColor) :
    undoMove flags st =
      updateStatus flags
        { st with historyLen := st.historyLen - 2,
                  fenHistory := st.fenHistory.dropLast.dropLast,
                  evalHistory := st.evalHistory.dropLast.dropLast,
                  currentEval :=
                    ((st.evalHistory.dropLast.dropLast).getLast?).getD (some 0),
                  viewingIndex :=
                    (st.fenHistory.dropLast.dropLast).length - 1 } := by
  unfold undoMove
  rw [hactive]
  rw [if_neg (by simp)]
  rw [if_neg (by omega)]
  rw [if_neg (by simp [hturn])]

/-- C8: with the game active, at least two completed half-moves and the
player to move, `undoMove` on parallel histories of length L ≥ 3 removes
exactly the two trailing entries of both arrays (never one), leaving
length L − 2, and places the viewing index on the new last entry.  The
`updateStatus` call at the end of `undoMove` sees an ongoing position
(the game continued from it), so the flags are neither checkmate nor
draw. -/
theorem C8_undo_removes_two (st : AppState) (flags : RulesFlags) (L : Nat)
    (hactive : st.gameActive = true)
    (hmoves : 2 ≤ st.historyLen)
    (hturn : st.turn = st.playerColor)
    (hfen : st.fenHistory.length = L)
    (heval : st.evalHistory.length = L)
    (hL : 3 ≤ L)
    (hcm : flags.inCheckmate = false)
    (hdraw : flags.inDraw = false) :
    (undoMove flags st).fenHistory = st.fenHistory.dropLast.dropLast ∧
    (undoMove flags st).evalHistory = st.evalHistory.dropLast.dropLast ∧
    (undoMove flags st).fenHistory.length = L - 2 ∧
    (undoMove flags st).evalHistory.length = L - 2 ∧
    (undoMove flags st).viewingIndex
      = (undoMove flags st).fenHistory.length - 1 ∧
    (undoMove flags st).viewingIndex = L - 3 := by
  rw [undoMove_unguarded flags st hactive hmoves hturn,
    updateStatus_ongoing flags _ hcm hdraw]
  refine ⟨rfl, rfl, ?_, ?_, ?_, ?_⟩ <;>
    simp only [List.length_dropLast, hfen, heval] <;> omega

/-- Witness for C8 on a three-entry history. -/
theorem C8_undo_removes_two_witness :
    (undoMove ⟨false, false, false, false, false, false⟩
        { gameActive := true, reviewingGame := false, gettingHint := false,
          playerColor := Color.w, turn := Color.w, historyLen := 2,
          fenHistory := ["f0", "f1", "f2"], viewingIndex := 2,
          evalHistory := [some 0, some 10, some 20],
          currentEval := some 20, tempBestEval := some 0, hintHistory := [],
          analysisIndex := 0, botSearchDepth := 1,
          evalBar := some 0 }).fenHistory = ["f0"] ∧
    (undoMove ⟨false, false, false, false, false, false⟩
        { gameActive := true, reviewingGame := false, gettingHint := false,
          playerColor := Color.w, turn := Color.w, historyLen := 2,
          fenHistory := ["f0", "f1", "f2"], viewingIndex := 2,
          evalHistory := [some 0, some 10, some 20],
          currentEval := some 20, tempBestEval := some 0, hintHistory := [],
          analysisIndex := 0, botSearchDepth := 1,
          evalBar := some 0 }).viewingIndex = 0 := by
  have h := C8_undo_removes_two
    { gameActive := true, reviewingGame := false, gettingHint := false,
      playerColor := Color.w, turn := Color.w, historyLen := 2,
      fenHistory := ["f0", "f1", "f2"], viewingIndex := 2,
      evalHistory := [some 0, some 10, some 20],
      currentEval := some 20, tempBestEval := some 0, hintHistory := [],
      analysisIndex := 0, botSearchDepth := 1, evalBar := some 0 }
    ⟨false, false, false, false, false, false⟩ 3
    rfl (by decide) rfl rfl rfl (by decide) rfl rfl
  exact ⟨h.1, h.2.2.2.2.2⟩

-- =====================================================================
-- C10: final-ply evaluation on checkmate and draw
-- =====================================================================

/-- C10: when `updateStatus` runs on an active game that has just ended,
it overwrites the last stored evaluation — discarding the engine's
reported score — with `+20000` when Black is checkmated (Black to move
in checkmate), `-20000` when White is checkmated, and `0` on every draw
(stalemate, threefold repetition, insufficient material all report
`in_draw`). -/
theorem C10_game_end_evaluation (st : AppState) (flags : RulesFlags)
    (hactive : st.gameActive = true) :
    (flags.inCheckmate = true → st.turn = Color.b →
      (updateStatus flags st).evalHistory
          = jsSetLast st.evalHistory (some 20000) ∧
      (updateStatus flags st).currentEval = some 20000) ∧
    (flags.inCheckmate = true → st.turn = Color.w →
      (updateStatus flags st).evalHistory
          = jsSetLast st.evalHistory (some (-20000)) ∧
      (updateStatus flags st).currentEval = some (-20000)) ∧
    (flags.inCheckmate = false → flags.inDraw = true →
      (updateStatus flags st).evalHistory
          = jsSetLast st.evalHistory (some 0) ∧
      (updateStatus flags st).currentEval = some 0) := by
  refine ⟨?_, ?_, ?_⟩
  · intro hcm hturn
    unfold updateStatus
    rw [hactive]
    rw [if_neg (by simp)]
    rw [if_pos (by simp [hcm])]
    simp [hturn]
  · intro hcm hturn
    unfold updateStatus
    rw [hactive]
    rw [if_neg (by simp)]
    rw [if_pos (by simp [hcm])]
    simp [hturn]
  · intro hcm hdraw
    unfold updateStatus
    rw [hactive]
    rw [if_neg (by simp)]
    rw [if_neg (by simp [hcm])]
    rw [if_pos (by simp [hdraw])]
    exact ⟨rfl, rfl⟩

/-- Witness for C10: Black checkmated on a two-entry history. -/
theorem C10_game_end_evaluation_witness :
    (updateStatus ⟨true, false, false, false, false, true⟩
        { gameActive := true, reviewingGame := false, gettingHint := false,
          playerColor := Color.w, turn := Color.b, historyLen := 1,
          fenHistory := ["f0", "f1"], viewingIndex := 1,
          evalHistory := [some 0, some 845],
          currentEval := some 845, tempBestEval := some 0, hintHistory := [],
          analysisIndex := 0, botSearchDepth := 1,
          evalBar := some 0 }).evalHistory = [some 0, some 20000] :=
  ((C10_game_end_evaluation
      { gameActive := true, reviewingGame := false, gettingHint := false,
        playerColor := Color.w, turn := Color.b, historyLen := 1,
        fenHistory := ["f0", "f1"], viewingIndex := 1,
        evalHistory := [some 0, some 845],
        currentEval := some 845, tempBestEval := some 0, hintHistory := [],
        analysisIndex := 0, botSearchDepth := 1, evalBar := some 0 }
      ⟨true, false, false, false, false, true⟩ rfl).1 rfl rfl).1

-- =====================================================================
-- C1: the batch pipeline is strictly sequential
-- =====================================================================

/-- `triggerMoveAnalysis` stops (summary) once the analysis index passes
the move count. -/
lemma trace_stop (P i : Nat) (h : P + 1 ≤ i) :
    triggerMoveAnalysisTrace P i = [] := by
  rw [triggerMoveAnalysisTrace]
  simp [h]

/-- One request/response round of the pipeline. -/
lemma trace_go (P i : Nat) (h : ¬ P + 1 ≤ i) :
    triggerMoveAnalysisTrace P i =
      AnalysisEvent.request i :: AnalysisEvent.response i ::
        triggerMoveAnalysisTrace P (i + 1) := by
  rw [triggerMoveAnalysisTrace]
  simp [h]

/-- The pipeline started at index `i` issues one request per remaining
index. -/
lemma trace_countP_request (P : Nat) : ∀ k i, P + 1 - i = k →
    (triggerMoveAnalysisTrace P i).countP isRequest = P + 1 - i := by
  intro k
  induction k with
  | zero =>
    intro i hk
    rw [trace_stop P i (by omega)]
    simp
    omega
  | succ k ih =>
    intro i hk
    rw [trace_go P i (by omega)]
    simp only [List.countP_cons]
    rw [ih (i + 1) (by omega)]
    simp [isRequest]
    omega

/-- On every prefix of the pipeline trace, the numbers of requests and
responses differ by at most one, with requests leading: at most one
request is outstanding at any time. -/
lemma trace_prefix_counts (P : Nat) : ∀ k i pre post, P + 1 - i = k →
    triggerMoveAnalysisTrace P i = pre ++ post →
    pre.countP isResponse ≤ pre.countP isRequest ∧
    pre.countP isRequest ≤ pre.countP isResponse + 1 := by
  intro k
  induction k with
  | zero =>
    intro i pre post hk heq
    rw [trace_stop P i (by omega)] at heq
    have hpre : pre = [] := by
      cases pre with
      | nil => rfl
      | cons a l => simp at heq
    subst hpre
    simp
  | succ k ih =>
    intro i pre post hk heq
    rw [trace_go P i (by omega)] at heq
    rcases pre with _ | ⟨a, _ | ⟨b, pre'⟩⟩
    · simp
    · simp only [List.cons_append, List.nil_append, List.cons.injEq] at heq
      obtain ⟨ha, -⟩ := heq
      subst ha
      simp [List.countP_cons, isRequest, isResponse]
    · simp only [List.cons_append, List.cons.injEq] at heq
      obtain ⟨ha, hb, heq3⟩ := heq
      subst ha
      subst hb
      have h := ih (i + 1) pre' post (by omega) heq3
      simp only [List.countP_cons, isRequest, isResponse]
      omega

/-- A request with index above the start can only appear after the
response for the previous index. -/
lemma trace_request_ordering (P : Nat) : ∀ k i pre post j, P + 1 - i = k →
    triggerMoveAnalysisTrace P i = pre ++ AnalysisEvent.request j :: post →
    i ≤ j ∧ (i < j → AnalysisEvent.response (j - 1) ∈ pre) := by
  intro k
  induction k with
  | zero =>
    intro i pre post j hk heq
    rw [trace_stop P i (by omega)] at heq
    cases pre <;> simp at heq
  | succ k ih =>
    intro i pre post j hk heq
    rw [trace_go P i (by omega)] at heq
    rcases pre with _ | ⟨a, _ | ⟨b, pre'⟩⟩
    · simp only [List.nil_append, List.cons.injEq, AnalysisEvent.request.injEq]
        at heq
      obtain ⟨hij, -⟩ := heq
      subst hij
      exact ⟨le_refl _, fun h => absurd h (lt_irrefl _)⟩
    · simp only [List.cons_append, List.nil_append, List.cons.injEq] at heq
      obtain ⟨-, hbad, -⟩ := heq
      exact absurd hbad (by simp)
    · simp only [List.cons_append, List.cons.injEq] at heq
      obtain ⟨ha, hb, heq3⟩ := heq
      subst ha
      subst hb
      have h := ih (i + 1) pre' post j (by omega) heq3
      refine ⟨by omega, fun hij => ?_⟩
      rcases Nat.lt_or_ge (i + 1) j with h2 | h2
      · exact List.mem_cons_of_mem _ (List.mem_cons_of_mem _ (h.2 h2))
      · have hj : j = i + 1 := by omega
        subst hj
        simp

/-- C1: for a finished game of P plies the pipeline's action sequence
contains exactly P + 1 requests (ply 0 through ply P); on every prefix
the response count never exceeds the request count and trails it by at
most one (at most one request outstanding); and the request for ply
j + 1 occurs only after the response for ply j has been processed. -/
theorem C1_pipeline_sequential (P : Nat) :
    (triggerMoveAnalysisTrace P 0).countP isRequest = P + 1 ∧
    (∀ pre post, triggerMoveAnalysisTrace P 0 = pre ++ post →
      pre.countP isResponse ≤ pre.countP isRequest ∧
      pre.countP isRequest ≤ pre.countP isResponse + 1) ∧
    (∀ pre post j, triggerMoveAnalysisTrace P 0
        = pre ++ AnalysisEvent.request (j + 1) :: post →
      AnalysisEvent.response j ∈ pre) := by
  refine ⟨?_, ?_, ?_⟩
  · have h := trace_countP_request P (P + 1 - 0) 0 rfl
    simpa using h
  · intro pre post heq
    exact trace_prefix_counts P (P + 1 - 0) 0 pre post rfl heq
  · intro pre post j heq
    have h := trace_request_ordering P (P + 1 - 0) 0 pre post (j + 1) rfl heq
    have h2 := h.2 (by omega)
    simpa using h2

/-- The full trace for a one-ply game. -/
lemma trace_one_zero : triggerMoveAnalysisTrace 1 0
    = [AnalysisEvent.request 0, AnalysisEvent.response 0,
       AnalysisEvent.request 1, AnalysisEvent.response 1] := by
  rw [trace_go 1 0 (by omega), trace_go 1 1 (by omega),
    trace_stop 1 2 (by omega)]

/-- Witness for C1 on the trace of a one-ply game. -/
theorem C1_pipeline_sequential_witness :
    AnalysisEvent.response 0
      ∈ [AnalysisEvent.request 0, AnalysisEvent.response 0] ∧
    ([AnalysisEvent.request 0, AnalysisEvent.response 0,
        AnalysisEvent.request 1] : List AnalysisEvent).countP isRequest
      ≤ [AnalysisEvent.request 0, AnalysisEvent.response 0,
          AnalysisEvent.request 1].countP isResponse + 1 :=
  ⟨(C1_pipeline_sequential 1).2.2
      [AnalysisEvent.request 0, AnalysisEvent.response 0]
      [AnalysisEvent.response 1] 0 (by rw [trace_one_zero]; rfl),
    ((C1_pipeline_sequential 1).2.1
      [AnalysisEvent.request 0, AnalysisEvent.response 0,
        AnalysisEvent.request 1]
      [AnalysisEvent.response 1] (by rw [trace_one_zero]; rfl)).2⟩

-- =====================================================================
-- C9: the evaluation stored at ply 0
-- =====================================================================

/-- Setting an index other than 0 leaves the head entry alone. -/
lemma get?_zero_set {α : Type} (l : List α) (i : Nat) (v : α) (hi : i ≠ 0) :
    (l.set i v).get? 0 = l.get? 0 := by
  cases l with
  | nil => simp
  | cons a t =>
    cases i with
    | zero => omega
    | succ n => simp [List.set]

/-- Appending leaves the head of a non-empty list alone. -/
lemma get?_zero_append {α : Type} (l : List α) (x : α) (h : l ≠ []) :
    (l ++ [x]).get? 0 = l.get? 0 := by
  cases l with
  | nil => exact absurd rfl h
  | cons a t => simp

/-- Dropping the last entry of a list with at least two entries leaves
the head alone. -/
lemma get?_zero_dropLast {α : Type} (l : List α) (h : 2 ≤ l.length) :
    l.dropLast.get? 0 = l.get? 0 := by
  rcases l with _ | ⟨a, _ | ⟨b, t⟩⟩
  · simp at h
  · simp at h
  · simp [List.dropLast]

/-- Writing the last entry of a list of length ≠ 1 leaves the head
alone. -/
lemma get?_zero_jsSetLast {α : Type} (l : List α) (v : α)
    (h : l.length ≠ 1) :
    (jsSetLast l v).get? 0 = l.get? 0 := by
  unfold jsSetLast
  cases l with
  | nil => simp
  | cons a t =>
    apply get?_zero_set
    simp only [List.length_cons] at h ⊢
    omega

/-- `updateStatus` leaves the ply-0 evaluation alone whenever the history
does not consist of ply 0 only. -/
lemma updateStatus_get?_zero (flags : RulesFlags) (st : AppState)
    (h : st.evalHistory.length ≠ 1) :
    (updateStatus flags st).evalHistory.get? 0 = st.evalHistory.get? 0 := by
  unfold updateStatus
  split_ifs <;> first
    | rfl
    | exact get?_zero_jsSetLast _ _ h

/-- The evaluation history produced by the score branch of
`botEngine.onmessage`, as a standalone equation. -/
lemma botEngineScoreStep_evalHistory (line : String) (st : AppState) :
    (botEngineScoreStep line st).evalHistory
      = if (jsStartsWith line "info" && jsIncludes line "score") = true then
          match rawScoreOfLine line with
          | none => st.evalHistory
          | some raw =>
            if st.evalHistory.length > 0 then
              jsSetLast st.evalHistory (adjustPerspective st.turn raw)
            else st.evalHistory
        else st.evalHistory := by
  unfold botEngineScoreStep
  split_ifs <;> first
    | rfl
    | (cases rawScoreOfLine line <;> rfl)

/-- A safe event preserves a zero ply-0 evaluation. -/
lemma stepEvent_preserves_plyZero (st : AppState) (e : GameEvent)
    (hsafe : evSafe st e)
    (h0 : st.evalHistory.get? 0 = some (some 0)) :
    (stepEvent st e).evalHistory.get? 0 = some (some 0) := by
  cases e with
  | startGame pc fen =>
    show (startNewGame pc fen st).evalHistory.get? 0 = some (some 0)
    unfold startNewGame
    split_ifs
    · exact h0
    · rfl
  | playerMove fen flags =>
    show (playerMoveStep fen flags st).evalHistory.get? 0 = some (some 0)
    have hne : st.evalHistory ≠ [] := hsafe
    have hpos : 0 < st.evalHistory.length := List.length_pos.mpr hne
    unfold playerMoveStep
    split_ifs with hg
    · rw [updateStatus_get?_zero _ _ (by
        show (st.evalHistory ++ [st.currentEval]).length ≠ 1
        simp only [List.length_append, List.length_cons, List.length_nil]
        omega)]
      show (st.evalHistory ++ [st.currentEval]).get? 0 = some (some 0)
      rw [get?_zero_append _ _ hne]
      exact h0
    · exact h0
  | botScore line =>
    show (botEngineScoreStep line st).evalHistory.get? 0 = some (some 0)
    have hsafe' : st.evalHistory.length ≠ 1 := hsafe
    rw [botEngineScoreStep_evalHistory]
    by_cases hg : (jsStartsWith line "info" && jsIncludes line "score") = true
    · rw [if_pos hg]
      cases hr : rawScoreOfLine line with
      | none =>
        simp only [hr]
        exact h0
      | some raw =>
        simp only [hr]
        by_cases hl : st.evalHistory.length > 0
        · rw [if_pos hl, get?_zero_jsSetLast _ _ hsafe']
          exact h0
        · rw [if_neg hl]
          exact h0
    · rw [if_neg hg]
      exact h0
  | botBest fen flags =>
    show (updateStatus flags (fenSnapshot fen
        { st with evalBar := st.currentEval, turn := flipColor st.turn,
                  historyLen := st.historyLen + 1 })).evalHistory.get? 0
      = some (some 0)
    have hne : st.evalHistory ≠ [] := hsafe
    have hpos : 0 < st.evalHistory.length := List.length_pos.mpr hne
    rw [updateStatus_get?_zero _ _ (by
      show (st.evalHistory ++ [st.currentEval]).length ≠ 1
      simp only [List.length_append, List.length_cons, List.length_nil]
      omega)]
    show (st.evalHistory ++ [st.currentEval]).get? 0 = some (some 0)
    rw [get?_zero_append _ _ hne]
    exact h0
  | undo flags =>
    obtain ⟨hlen, hcm, hdraw⟩ := hsafe
    show (undoMove flags st).evalHistory.get? 0 = some (some 0)
    unfold undoMove
    split_ifs with h1 h2 h3
    · exact h0
    · exact h0
    · exact h0
    · show (updateStatus flags
          { st with historyLen := st.historyLen - 2,
                    fenHistory := st.fenHistory.dropLast.dropLast,
                    evalHistory := st.evalHistory.dropLast.dropLast,
                    currentEval :=
                      ((st.evalHistory.dropLast.dropLast).getLast?).getD
                        (some 0),
                    viewingIndex :=
                      (st.fenHistory.dropLast.dropLast).length - 1
            }).evalHistory.get? 0 = some (some 0)
      rw [updateStatus_ongoing _ _ hcm hdraw]
      show (st.evalHistory.dropLast.dropLast).get? 0 = some (some 0)
      rw [get?_zero_dropLast _ (by simp only [List.length_dropLast]; omega),
        get?_zero_dropLast _ (by omega)]
      exact h0
  | hint =>
    show (getHint st).evalHistory.get? 0 = some (some 0)
    unfold getHint
    split_ifs <;> exact h0
  | hintScore line =>
    show (hintEngineScoreStep line st).evalHistory.get? 0 = some (some 0)
    unfold hintEngineScoreStep
    split_ifs with hg
    · cases hr : rawScoreOfLine line with
      | none => simp only [hr]; exact h0
      | some raw => simp only [hr]; exact h0
    · exact h0
  | hintBest message =>
    show (hintEngineBestStep message st).evalHistory.get? 0 = some (some 0)
    unfold hintEngineBestStep
    cases hm : (jsSplit message " ").get? 1 with
    | none => exact h0
    | some bmm =>
      simp only [hm]
      by_cases hb : bmm = "(none)"
      · rw [if_pos hb]
        by_cases hr : st.reviewingGame = true
        · rw [if_pos hr]
          exact h0
        · rw [if_neg hr]
          exact h0
      · rw [if_neg hb]
        by_cases hr : st.reviewingGame = true
        · rw [if_pos hr]
          have hidx : st.analysisIndex ≠ 0 := by
            cases hsafe with
            | inl h => exact absurd hr (by simp [h])
            | inr h => exact h
          cases hf : st.fenHistory.get? st.analysisIndex with
          | none => simp only [hf]; exact h0
          | some fen =>
            simp only [hf]
            by_cases hv : st.analysisIndex = st.viewingIndex
            · rw [if_pos hv]
              show ((st.evalHistory.set st.analysisIndex _).get? 0)
                = some (some 0)
              rw [get?_zero_set _ _ _ hidx]
              exact h0
            · rw [if_neg hv]
              show ((st.evalHistory.set st.analysisIndex _).get? 0)
                = some (some 0)
              rw [get?_zero_set _ _ _ hidx]
              exact h0
        · rw [if_neg hr]
          split_ifs <;> exact h0
  | startReview =>
    exact h0
  | exitMenu fen =>
    rfl

/-- C9 counterexample: on the reachable trace `c9Events` (new game as
Black, then the engine's first `info` line while `evalHistory = [0]`),
the evaluation stored at ply 0 becomes 30, not 0.  (The review pipeline's
re-evaluation of analysis index 0 overwrites ply 0 the same way.) -/
theorem C9_ply_zero_counterexample :
    (runEvents pageLoadState c9Events).evalHistory.get? 0 = some (some 30) ∧
    ¬ (runEvents pageLoadState c9Events).evalHistory.get? 0
        = some (some 0) := by
  decide

/-- C9 (amended): the evaluation stored at ply 0 is 0 after initialization
and every reset, and every modelled transition preserves it except the
two that genuinely overwrite it — an engine score processed while ply 0
is the last (only) entry, and review's re-evaluation at analysis index 0;
on every run whose events satisfy the `evSafe` side conditions ruling
those two out, the ply-0 evaluation stays 0. -/
theorem C9_ply_zero_conditional (evs : List GameEvent) :
    ∀ st : AppState, st.evalHistory.get? 0 = some (some 0) →
      SafeTrace st evs →
      (runEvents st evs).evalHistory.get? 0 = some (some 0) := by
  induction evs with
  | nil =>
    intro st h0 _
    exact h0
  | cons e evs ih =>
    intro st h0 hsafe
    exact ih (stepEvent st e)
      (stepEvent_preserves_plyZero st e hsafe.1 h0) hsafe.2

/-- Witness for C9 on a two-event safe trace (new game, then a hint-engine
score message, which never touches the store). -/
theorem C9_ply_zero_conditional_witness :
    (runEvents pageLoadState
        [GameEvent.startGame Color.w startingFen,
         GameEvent.hintScore "info depth 1 score cp 30"]).evalHistory.get? 0
      = some (some 0) :=
  C9_ply_zero_conditional
    [GameEvent.startGame Color.w startingFen,
     GameEvent.hintScore "info depth 1 score cp 30"]
    pageLoadState (by decide) ⟨trivial, trivial, trivial⟩
